import Mathlib

/-!
Shallow embedding of `src/Bitcoin_tracker.py` (class `BitcoinConverterBinance`
and its menu helpers) and proofs about the claims of its specification.

Conventions of the embedding:
* Python `float` values obtained by parsing API strings are modelled as
  rationals `ℚ`; a JSON field value is a `PyVal`, recording whether `float()`
  on it succeeds (`PyVal.num q`) or raises `ValueError` (`PyVal.bad`).
* Exceptions are modelled with `Except PyErr`; a `try/except` block becomes a
  `match` on the `Except` result, one arm per handler.
* The interactive amount prompt works with full IEEE-style special values
  (`nan`, `inf`), modelled by `PyFloat`, because the loop's `<=` comparison
  on NaN is what the claims about it turn on.
* Network responses are inputs of the embedded functions: a response is either
  a raised error (`Except.error`) or parsed JSON data (`Except.ok`).
-/

/-- Exception kinds distinguished by the handlers in the source. -/
inductive PyErr where
  | requestErr   -- requests.exceptions.RequestException
  | valueErr     -- ValueError
  | keyErr       -- KeyError
  | jsonErr      -- json.JSONDecodeError
  | otherErr     -- any other Exception
deriving DecidableEq, Repr

/-- A JSON field value as seen by `float()`: either it converts to the
rational `q`, or the conversion raises `ValueError`. -/
inductive PyVal where
  | num (q : ℚ)
  | bad
deriving DecidableEq, Repr

/-- Python `float(v)` on a field value. -/
def pyFloat : PyVal → Except PyErr ℚ
  | .num q => .ok q
  | .bad => .error .valueErr

/-- A parsed JSON object: association list from keys to field values. -/
abbrev TickerData := List (String × PyVal)

/-- Python `k in data`. -/
def hasKey (d : TickerData) (k : String) : Bool :=
  d.any (fun kv => kv.1 = k)

/-- Python `data[k]` under a `k in data` guard (first binding wins). -/
def getVal (d : TickerData) (k : String) : PyVal :=
  match d.find? (fun kv => kv.1 = k) with
  | some kv => kv.2
  | none => .bad

/-- Python `data.get(k, default)`. -/
def getValD (d : TickerData) (k : String) (dflt : PyVal) : PyVal :=
  match d.find? (fun kv => kv.1 = k) with
  | some kv => kv.2
  | none => dflt

/-! ## `get_current_price` and `_get_alternative_price` (lines 16–57) -/

/-- Body of the `try` block of `get_current_price`: issue the spot-price
request (`resp` is its outcome) and extract `float(data['price'])` when the
`price` key is present, `None` otherwise. -/
def getCurrentPriceTry (resp : Except PyErr TickerData) :
    Except PyErr (Option ℚ) := do
  let data ← resp
  if hasKey data "price" then
    let p ← pyFloat (getVal data "price")
    pure (some p)
  else
    pure none

/-- Body of the `try` block of `_get_alternative_price`: from the 24h ticker
response take `lastPrice` when present, else the bid/ask midpoint, else
`None`. -/
def getAlternativePriceTry (resp : Except PyErr TickerData) :
    Except PyErr (Option ℚ) := do
  let data ← resp
  if hasKey data "lastPrice" then
    let p ← pyFloat (getVal data "lastPrice")
    pure (some p)
  else if hasKey data "bidPrice" && hasKey data "askPrice" then
    let b ← pyFloat (getVal data "bidPrice")
    let a ← pyFloat (getVal data "askPrice")
    pure (some ((b + a) / 2))
  else
    pure none

/-- `_get_alternative_price`: the bare `except:` maps every raised error to
`None`. -/
def getAlternativePrice (resp : Except PyErr TickerData) : Option ℚ :=
  match getAlternativePriceTry resp with
  | .ok r => r
  | .error _ => none

/-- `get_current_price`: a `RequestException` from the primary request falls
back to `_get_alternative_price` (on the fallback response `alt`); the
`(KeyError, ValueError, json.JSONDecodeError)` handler and the generic
`Exception` handler both return `None`. -/
def getCurrentPrice (primary alt : Except PyErr TickerData) : Option ℚ :=
  match getCurrentPriceTry primary with
  | .ok r => r
  | .error .requestErr => getAlternativePrice alt
  | .error _ => none

/-- `get_current_price` kept at the exception level: one arm per `except`
handler of the source, each returning normally (`.ok`). An exception that
escaped the service boundary would appear here as an `.error`, so the
boundary property is that this computation is `.ok` for every input. -/
def getCurrentPriceChecked (primary alt : Except PyErr TickerData) :
    Except PyErr (Option ℚ) :=
  match getCurrentPriceTry primary with
  | .ok r => .ok r
  | .error .requestErr => .ok (getAlternativePrice alt)
  | .error .keyErr => .ok none
  | .error .valueErr => .ok none
  | .error .jsonErr => .ok none
  | .error .otherErr => .ok none

/-! ## Amount prompt loop and conversion (lines 284–323) -/

/-- A Python float including the non-finite values the prompt loop can
produce (`float("nan")`, `float("inf")`, `float("-inf")`). -/
inductive PyFloat where
  | num (q : ℚ)
  | nan
  | inf
  | ninf
deriving DecidableEq, Repr

/-- The loop's test `amount_btc <= 0` under IEEE comparison semantics:
any comparison with NaN is false. -/
def pyLeZero : PyFloat → Bool
  | .num q => q ≤ 0
  | .nan => false
  | .inf => false
  | .ninf => true

/-- `v > 0` under IEEE comparison semantics (used only to state claims). -/
def pyGtZero : PyFloat → Bool
  | .num q => 0 < q
  | .nan => false
  | .inf => true
  | .ninf => false

/-- The `while True` prompt loop of `convert_bitcoin_to_usd`: each list entry
is the `float()` parse outcome of one typed line (`none` = `ValueError`).
A parse failure or a value with `v <= 0` true re-prompts (moves to the next
entry); otherwise the loop breaks with the value. `none` as the result means
the input stream was exhausted without the loop breaking. -/
def amountLoop : List (Option PyFloat) → Option PyFloat
  | [] => none
  | none :: rest => amountLoop rest
  | some v :: rest => if pyLeZero v then amountLoop rest else some v

/-- `result = amount_btc * price_btc` with an IEEE amount and a finite
price. -/
def pyMulQ : PyFloat → ℚ → PyFloat
  | .num a, q => .num (a * q)
  | .nan, _ => .nan
  | .inf, q => if 0 < q then .inf else if q < 0 then .ninf else .nan
  | .ninf, q => if 0 < q then .ninf else if q < 0 then .inf else .nan

/-- The conversion result displayed by `convert_bitcoin_to_usd`
(`result = amount_btc * price_btc`). -/
def convertResultPy (amount : PyFloat) (price : ℚ) : PyFloat :=
  pyMulQ amount price

/-- `result = amount_btc * price_btc` in the all-finite case. -/
def conversionResult (amount price : ℚ) : ℚ := amount * price

/-- The `:,.2f` display formatting rounds to whole cents; modelled as
rounding `q * 100` to the nearest integer (no value in the claims sits on a
rounding tie, so the tie-breaking rule is irrelevant). -/
def displayCents (q : ℚ) : ℤ := round (q * 100)

/-- ASCII lowercasing of one character, as `str.lower()` does on ASCII. -/
def lowerChar (c : Char) : Char :=
  if 65 ≤ c.toNat ∧ c.toNat ≤ 90 then Char.ofNat (c.toNat + 32) else c

/-- `str.lower()` on the typed answer (the answers that matter are ASCII). -/
def pyLower (s : String) : String := ⟨s.data.map lowerChar⟩

/-- Python truthiness of the `price_btc` variable at `if not price_btc`:
falsy when the price is absent (`None`) or equal to `0.0`. -/
def pyFalsy : Option ℚ → Bool
  | none => true
  | some q => q = 0

/-- The price-selection prefix of `convert_bitcoin_to_usd` (lines 284–301):
when `price_btc` is falsy the user is asked whether to use the $50,000
reference price (`useDefault` is the typed answer, lowercased by the code);
on `"y"` the price is 50000, otherwise one manual entry is read and parsed
(`manual` is its `float()` outcome) — a `ValueError` silently substitutes
50000. When `price_btc` is truthy it is used as is. -/
def choosePrice (priceBtc : Option ℚ) (useDefault : String)
    (manual : Option ℚ) : ℚ :=
  if pyFalsy priceBtc then
    if pyLower useDefault = "y" then
      50000
    else
      match manual with
      | some v => v
      | none => 50000
  else
    match priceBtc with
    | some q => q
    | none => 50000

/-! ## 24-hour analysis: `show_textual_24h_price` (lines 127–192) -/

/-- The computation of the detailed 24h display up to the variation line
(lines 138–149): parse `lastPrice`, `openPrice`, `highPrice`, `lowPrice`
(each via `data.get(key, 0)` then `float`), then
`variation = current_price - open_price` and
`variation_percentage = (variation / open_price) * 100 if open_price else 0`.
The result is the displayed `(variation, variation_percentage)` pair; an
error means a `ValueError` occurred before the variation line was printed
(the code then falls back to `_show_basic_24h_price`). -/
def display24hVariation (data : TickerData) : Except PyErr (ℚ × ℚ) := do
  let currentPrice ← pyFloat (getValD data "lastPrice" (.num 0))
  let openPrice ← pyFloat (getValD data "openPrice" (.num 0))
  let _highPrice ← pyFloat (getValD data "highPrice" (.num 0))
  let _lowPrice ← pyFloat (getValD data "lowPrice" (.num 0))
  let variation := currentPrice - openPrice
  let variationPercentage := if openPrice ≠ 0 then variation / openPrice * 100 else 0
  pure (variation, variationPercentage)

/-! ## ASCII chart of the 24h screen (lines 168–180) -/

/-- Python `int()` on a rational: truncation toward zero. -/
def pyInt (q : ℚ) : ℤ :=
  if 0 ≤ q then ⌊q⌋ else -⌊-q⌋

/-- Python `min(prices)` over a non-empty list (the `[]` case is never
reached under the `len(prices) > 1` guard). -/
def pyMin : List ℚ → ℚ
  | [] => 0
  | x :: xs => xs.foldl min x

/-- Python `max(prices)` over a non-empty list. -/
def pyMax : List ℚ → ℚ
  | [] => 0
  | x :: xs => xs.foldl max x

/-- `step = max(1, len(prices) // 12)`. -/
def chartStep (n : ℕ) : ℕ := max 1 (n / 12)

/-- The indices visited by `for i in range(0, len(prices), step)`. -/
def plottedIndices (n : ℕ) : List ℕ :=
  (List.range n).filter (fun i => i % chartStep n = 0)

/-- `height = int(((prices[i] - price_min_chart) / price_range) * 20)`. -/
def barHeight (p priceMin priceRange : ℚ) : ℤ :=
  pyInt ((p - priceMin) / priceRange * 20)

/-- Number of characters of `bar = "█" * (height + 1)` (Python string
repetition with a non-positive count yields the empty string). -/
def barChars (height : ℤ) : ℕ := (height + 1).toNat

/-- The lengths of the bars the chart prints, one per plotted point, under
the source's guards `len(prices) > 1` and `price_range > 0` (no bars are
printed otherwise). -/
def chartBarLens (prices : List ℚ) : List ℕ :=
  if 1 < prices.length then
    if 0 < pyMax prices - pyMin prices then
      (plottedIndices prices.length).map
        (fun i => barChars (barHeight (prices.getD i 0) (pyMin prices)
          (pyMax prices - pyMin prices)))
    else []
  else []

/-! ## `get_historical_data` (lines 59–111) -/

/-- The `(interval, limit)` choice of `get_historical_data` (lines 66–78). -/
def intervalLimit (days : ℤ) : String × ℤ :=
  if days ≤ 1 then ("15m", 96)
  else if days ≤ 7 then ("1h", 168)
  else if days ≤ 30 then ("4h", 180)
  else ("1d", min days 1000)

/-- A kline candle as returned by the API: a list of field values
(`[time, open, high, low, close, ...]`). -/
abbrev Candle := List PyVal

/-- The formatting loop of `get_historical_data` (lines 94–100): keep each
candle with at least 6 fields as `[candle[0], float(candle[4])]`; a
`ValueError` from `float` aborts the whole call. -/
def processCandles : List Candle → Except PyErr (List (PyVal × ℚ))
  | [] => .ok []
  | c :: rest =>
    if 6 ≤ c.length then do
      let price ← pyFloat (c.getD 4 .bad)
      let tail ← processCandles rest
      pure ((c.getD 0 .bad, price) :: tail)
    else
      processCandles rest

/-- `get_historical_data` after the request: a raised error from the request
or the loop returns `None` (all handlers return `None`), and
`return historical if historical else None` maps an empty result to `None`.
The input `resp` is the outcome of the klines request. -/
def getHistoricalData (resp : Except PyErr (List Candle)) :
    Option (List (PyVal × ℚ)) :=
  match resp with
  | .error _ => none
  | .ok data =>
    match processCandles data with
    | .error _ => none
    | .ok historical => if historical.isEmpty then none else some historical

/-! ## Theorems about the claims -/

/-- C1: in the 24-hour analysis, for every ticker response whose price
fields parse as numbers, the displayed variation equals
`lastPrice - openPrice` and the displayed percentage equals
`variation / openPrice * 100`, with percentage `0` when `openPrice` is `0`.
(The high and low fields must also parse for the detailed display to be
reached at all; a failure there diverts to the basic fallback screen.) -/
theorem c1_variation_and_percentage (data : TickerData) (l o hp lp : ℚ)
    (hl : getValD data "lastPrice" (PyVal.num 0) = PyVal.num l)
    (ho : getValD data "openPrice" (PyVal.num 0) = PyVal.num o)
    (hh : getValD data "highPrice" (PyVal.num 0) = PyVal.num hp)
    (hlo : getValD data "lowPrice" (PyVal.num 0) = PyVal.num lp) :
    display24hVariation data =
      .ok (l - o, if o = 0 then 0 else (l - o) / o * 100) := by
  unfold display24hVariation
  rw [hl, ho, hh, hlo]
  show Except.ok (l - o, if o ≠ 0 then (l - o) / o * 100 else 0) = _
  by_cases h0 : o = 0 <;> simp [h0]

/-- C1 witness: a concrete ticker response with lastPrice 110 and
openPrice 100 displays variation 10 and percentage 10%. -/
theorem c1_variation_and_percentage_witness :
    display24hVariation
      [("lastPrice", PyVal.num 110), ("openPrice", PyVal.num 100),
       ("highPrice", PyVal.num 120), ("lowPrice", PyVal.num 90)] =
      .ok (10, 10) := by
  have h := c1_variation_and_percentage
    [("lastPrice", PyVal.num 110), ("openPrice", PyVal.num 100),
     ("highPrice", PyVal.num 120), ("lowPrice", PyVal.num 90)]
    110 100 120 90 (by decide) (by decide) (by decide) (by decide)
  rw [h]
  norm_num

/-- C2 counterexample: the input `"nan"` parses as a float, the loop
accepts it (NaN fails the `<= 0` test), yet NaN is not strictly greater
than `0` — so the loop can exit with a value that is not a number strictly
greater than zero. -/
theorem c2_counterexample :
    amountLoop [some PyFloat.nan] = some PyFloat.nan ∧
    pyGtZero PyFloat.nan = false :=
  ⟨rfl, rfl⟩

/-- C2 amended: the prompt loop re-prompts on every parse failure and on
every value with `v <= 0` true, and exits exactly with a parsed value for
which `v <= 0` is false; every accepted finite value is strictly positive,
but the non-finite NaN (for which both `v <= 0` and `v > 0` are false) is
also accepted. -/
theorem c2_amount_loop :
    (∀ rest, amountLoop (none :: rest) = amountLoop rest) ∧
    (∀ v rest, pyLeZero v = true → amountLoop (some v :: rest) = amountLoop rest) ∧
    (∀ v rest, pyLeZero v = false → amountLoop (some v :: rest) = some v) ∧
    (∀ inputs v, amountLoop inputs = some v → pyLeZero v = false) ∧
    (∀ q : ℚ, pyLeZero (PyFloat.num q) = false → 0 < q) := by
  refine ⟨fun rest => rfl,
    fun v rest hv => by simp [amountLoop, hv],
    fun v rest hv => by simp [amountLoop, hv],
    ?_, ?_⟩
  · intro inputs
    induction inputs with
    | nil => intro v h; simp [amountLoop] at h
    | cons x rest ih =>
      intro v h
      match x with
      | none => exact ih v h
      | some w =>
        by_cases hw : pyLeZero w
        · exact ih v (by simpa [amountLoop, hw] using h)
        · have hv : w = v := by simpa [amountLoop, hw] using h
          subst hv
          simpa using hw
  · intro q hq
    simp [pyLeZero] at hq
    exact hq

/-- C2 witness: `-1` is rejected and re-prompted, a parse failure is
re-prompted, `2` is accepted, and an accepted finite value is strictly
positive. -/
theorem c2_amount_loop_witness :
    amountLoop [some (PyFloat.num (-1))] = amountLoop [] ∧
    amountLoop [none] = amountLoop [] ∧
    amountLoop [some (PyFloat.num 2)] = some (PyFloat.num 2) ∧
    (0 : ℚ) < 2 :=
  ⟨c2_amount_loop.2.1 (PyFloat.num (-1)) [] (by decide),
   c2_amount_loop.1 [],
   c2_amount_loop.2.2.1 (PyFloat.num 2) [] (by decide),
   c2_amount_loop.2.2.2.2 2 (by decide)⟩

/-- C7: with price $65,000.12345678 and amount 0.5 the conversion computes
the exact product $32,500.06172839 at full precision, and the two-decimal
display rounds it to $32,500.06 (3,250,006 cents). -/
theorem c7_conversion_precision :
    conversionResult (1/2) (6500012345678 / 100000000) =
      3250006172839 / 100000000 ∧
    displayCents (conversionResult (1/2) (6500012345678 / 100000000)) =
      3250006 := by
  constructor
  · unfold conversionResult
    norm_num
  · unfold displayCents conversionResult
    rw [round_eq]
    norm_num

/-- C8: when `get_current_price` returned `None` and the user declines the
$50,000 reference price, the manual entry path is taken and a user-supplied
value that parses as a float becomes the price used for conversion. -/
theorem c8_manual_price_accepted (s : String) (v : ℚ)
    (hs : pyLower s ≠ "y") :
    choosePrice none s (some v) = v := by
  unfold choosePrice pyFalsy
  simp [hs]

/-- C8 witness: declining with `"n"` and typing a value parsing to 12.3
makes 12.3 the conversion price. -/
theorem c8_manual_price_accepted_witness :
    choosePrice none "n" (some (123/10)) = 123/10 :=
  c8_manual_price_accepted "n" (123/10) (by decide)

/-- C10: when the price is unavailable and the user declines the reference
price, a manual entry that fails to parse as a float is not re-prompted:
the converter silently substitutes 50000.0 and proceeds. -/
theorem c10_invalid_manual_price (s : String) (hs : pyLower s ≠ "y") :
    choosePrice none s none = 50000 := by
  unfold choosePrice pyFalsy
  simp [hs]

/-- C10 witness: declining with `"n"` and typing an unparsable price yields
the substituted price 50000. -/
theorem c10_invalid_manual_price_witness :
    choosePrice none "n" none = 50000 :=
  c10_invalid_manual_price "n" (by decide)

/-! Helper lemmas (shared) -/

theorem except_bind_ok {α β : Type} (a : α) (f : α → Except PyErr β) :
    (Except.ok a : Except PyErr α).bind f = f a := rfl

theorem except_bind_err {α β : Type} (e : PyErr) (f : α → Except PyErr β) :
    (Except.error e : Except PyErr α).bind f = .error e := rfl

theorem getAlternativePriceTry_ok (d : TickerData) :
    getAlternativePriceTry (.ok d) =
      if hasKey d "lastPrice" then
        (pyFloat (getVal d "lastPrice")).bind (fun p => .ok (some p))
      else if hasKey d "bidPrice" && hasKey d "askPrice" then
        (pyFloat (getVal d "bidPrice")).bind (fun b =>
          (pyFloat (getVal d "askPrice")).bind (fun a =>
            .ok (some ((b + a) / 2))))
      else .ok none := rfl

theorem getHistoricalData_ok (data : List Candle) :
    getHistoricalData (.ok data) =
      match processCandles data with
      | .error _ => none
      | .ok historical =>
        if historical.isEmpty then none else some historical := rfl

theorem processCandles_err (data : List Candle)
    (hbad : ∃ c ∈ data, 6 ≤ c.length ∧ c.getD 4 PyVal.bad = PyVal.bad) :
    processCandles data = .error PyErr.valueErr := by
  induction data with
  | nil => simp at hbad
  | cons c rest ih =>
    obtain ⟨c', hc', hlen, hbadc⟩ := hbad
    rcases List.mem_cons.mp hc' with h | h
    · subst h
      unfold processCandles
      rw [if_pos hlen, hbadc]
      rfl
    · have hrest := ih ⟨c', h, hlen, hbadc⟩
      unfold processCandles
      by_cases hc : 6 ≤ c.length
      · rw [if_pos hc]
        cases hval : c.getD 4 PyVal.bad with
        | bad => rfl
        | num q =>
          show (pyFloat (PyVal.num q)).bind _ = _
          rw [show pyFloat (PyVal.num q) = .ok q from rfl, except_bind_ok]
          show (processCandles rest).bind _ = _
          rw [hrest, except_bind_err]
      · rw [if_neg hc]
        exact hrest

theorem processCandles_ok_mem (data : List Candle) (x : PyVal × ℚ)
    (t : List (PyVal × ℚ)) (h : processCandles data = .ok (x :: t)) :
    ∃ c ∈ data, 6 ≤ c.length ∧ ∃ q, c.getD 4 PyVal.bad = PyVal.num q := by
  induction data generalizing x t with
  | nil => simp [processCandles] at h
  | cons c rest ih =>
    unfold processCandles at h
    by_cases hc : 6 ≤ c.length
    · rw [if_pos hc] at h
      cases hval : c.getD 4 PyVal.bad with
      | num q => exact ⟨c, List.mem_cons_self c rest, hc, q, hval⟩
      | bad =>
        rw [hval] at h
        have h' : (Except.error PyErr.valueErr : Except PyErr (List (PyVal × ℚ))) =
            Except.ok (x :: t) := h
        cases h'
    · rw [if_neg hc] at h
      obtain ⟨c', hc', hlen, q, hq⟩ := ih x t h
      exact ⟨c', List.mem_cons_of_mem c hc', hlen, q, hq⟩

theorem foldl_min_le (xs : List ℚ) :
    ∀ a : ℚ, xs.foldl min a ≤ a ∧ ∀ p ∈ xs, xs.foldl min a ≤ p := by
  induction xs with
  | nil => intro a; exact ⟨le_refl a, by simp⟩
  | cons x xs ih =>
    intro a
    obtain ⟨h1, h2⟩ := ih (min a x)
    refine ⟨le_trans h1 (min_le_left a x), ?_⟩
    intro p hp
    rcases List.mem_cons.mp hp with h | h
    · subst h; exact le_trans h1 (min_le_right a p)
    · exact h2 p h

theorem le_foldl_max (xs : List ℚ) :
    ∀ a : ℚ, a ≤ xs.foldl max a ∧ ∀ p ∈ xs, p ≤ xs.foldl max a := by
  induction xs with
  | nil => intro a; exact ⟨le_refl a, by simp⟩
  | cons x xs ih =>
    intro a
    obtain ⟨h1, h2⟩ := ih (max a x)
    refine ⟨le_trans (le_max_left a x) h1, ?_⟩
    intro p hp
    rcases List.mem_cons.mp hp with h | h
    · subst h; exact le_trans (le_max_right a p) h1
    · exact h2 p h

theorem pyMin_le (l : List ℚ) (p : ℚ) (hp : p ∈ l) : pyMin l ≤ p := by
  cases l with
  | nil => cases hp
  | cons x xs =>
    rcases List.mem_cons.mp hp with h | h
    · subst h; exact (foldl_min_le xs p).1
    · exact (foldl_min_le xs x).2 p h

theorem le_pyMax (l : List ℚ) (p : ℚ) (hp : p ∈ l) : p ≤ pyMax l := by
  cases l with
  | nil => cases hp
  | cons x xs =>
    rcases List.mem_cons.mp hp with h | h
    · subst h; exact (le_foldl_max xs p).1
    · exact (le_foldl_max xs x).2 p h

theorem barHeight_bounds (p pmin range : ℚ) (h0 : 0 < range)
    (hl : pmin ≤ p) (hr : p ≤ pmin + range) :
    0 ≤ barHeight p pmin range ∧ barHeight p pmin range ≤ 20 := by
  have hq0 : 0 ≤ (p - pmin) / range := div_nonneg (by linarith) h0.le
  have hq1 : (p - pmin) / range ≤ 1 := (div_le_one h0).mpr (by linarith)
  have hx0 : 0 ≤ (p - pmin) / range * 20 := mul_nonneg hq0 (by norm_num)
  have hx20 : (p - pmin) / range * 20 ≤ 20 := by linarith
  have heq : barHeight p pmin range = ⌊(p - pmin) / range * 20⌋ := by
    unfold barHeight pyInt
    rw [if_pos hx0]
  constructor
  · rw [heq]; exact Int.floor_nonneg.mpr hx0
  · rw [heq]
    have h20 : (⌊(p - pmin) / range * 20⌋ : ℚ) ≤ 20 :=
      le_trans (Int.floor_le _) hx20
    exact_mod_cast h20

theorem chartBarLens_two : chartBarLens [(0:ℚ), 1] = [1, 21] := by
  unfold chartBarLens plottedIndices chartStep pyMin pyMax barHeight barChars pyInt
  norm_num [List.range_succ]
  decide

/-- C3: a network failure of the spot-price request falls back to the 24h
ticker (lastPrice when present and parsing, else the bid/ask midpoint);
when both the primary and the fallback requests fail the result is `none`;
and the exception-level computation with the source's handlers installed
returns normally (`.ok`) on every input, so no exception escapes the
service boundary. -/
theorem c3_price_fallback_boundary :
    (∀ alt, getCurrentPrice (.error .requestErr) alt = getAlternativePrice alt) ∧
    (∀ (d : TickerData) (q : ℚ), hasKey d "lastPrice" = true →
      getVal d "lastPrice" = PyVal.num q →
      getAlternativePrice (.ok d) = some q) ∧
    (∀ (d : TickerData) (b a : ℚ), hasKey d "lastPrice" = false →
      hasKey d "bidPrice" = true → hasKey d "askPrice" = true →
      getVal d "bidPrice" = PyVal.num b → getVal d "askPrice" = PyVal.num a →
      getAlternativePrice (.ok d) = some ((b + a) / 2)) ∧
    (∀ e, getCurrentPrice (.error .requestErr) (.error e) = none) ∧
    (∀ primary alt,
      getCurrentPriceChecked primary alt = .ok (getCurrentPrice primary alt)) := by
  refine ⟨fun alt => rfl, ?_, ?_, fun e => rfl, ?_⟩
  · intro d q hk hv
    unfold getAlternativePrice
    rw [getAlternativePriceTry_ok, hk, hv]
    rfl
  · intro d b a hk hb ha hvb hva
    unfold getAlternativePrice
    rw [getAlternativePriceTry_ok, hk, hb, ha, hvb, hva]
    rfl
  · intro primary alt
    unfold getCurrentPriceChecked getCurrentPrice
    cases h : getCurrentPriceTry primary with
    | ok r => rfl
    | error e => cases e <;> rfl

/-- C3 witness: with the spot request down, a ticker with lastPrice 100
gives 100; one with only bid 10 / ask 20 gives the midpoint 15; with both
requests down the result is `none`; and the checked boundary returns
normally on a concrete input. -/
theorem c3_price_fallback_boundary_witness :
    getAlternativePrice (.ok [("lastPrice", PyVal.num 100)]) = some 100 ∧
    getAlternativePrice
      (.ok [("bidPrice", PyVal.num 10), ("askPrice", PyVal.num 20)]) =
      some 15 ∧
    getCurrentPrice (.error .requestErr) (.error .jsonErr) = none := by
  refine ⟨c3_price_fallback_boundary.2.1 _ 100 (by decide) (by decide), ?_,
    c3_price_fallback_boundary.2.2.2.1 .jsonErr⟩
  have h := c3_price_fallback_boundary.2.2.1
    [("bidPrice", PyVal.num 10), ("askPrice", PyVal.num 20)] 10 20
    (by decide) (by decide) (by decide) (by decide) (by decide)
  rw [h]
  norm_num

/-- C4 counterexample: with prices `[0, 1]` the chart draws bars of 1 and
21 characters — the bar at the maximum has 21 rows, outside the claimed
0–20 range (the code prints `height + 1` bar characters). -/
theorem c4_counterexample :
    chartBarLens [(0:ℚ), 1] = [1, 21] ∧
    ¬ (∀ b ∈ chartBarLens [(0:ℚ), 1], b ≤ 20) := by
  refine ⟨chartBarLens_two, ?_⟩
  rw [chartBarLens_two]
  intro hall
  have h := hall 21 (by simp)
  omega

/-- C4 amended: for every plotted point the scaled value
`((price - min) / range) * 20` truncated to an integer lies between 0 and
20 inclusive, and the drawn bar consists of that height plus one characters,
hence between 1 and 21 character rows inclusive. -/
theorem c4_bar_bounds (prices : List ℚ) (b : ℕ) (hb : b ∈ chartBarLens prices) :
    ∃ h : ℤ, 0 ≤ h ∧ h ≤ 20 ∧ b = (h + 1).toNat ∧ 1 ≤ b ∧ b ≤ 21 := by
  unfold chartBarLens at hb
  split_ifs at hb with h1 h2
  · obtain ⟨i, hi, rfl⟩ := List.mem_map.mp hb
    have hin : i < prices.length :=
      List.mem_range.mp (List.mem_filter.mp hi).1
    have hpm : prices.getD i 0 ∈ prices := by
      rw [List.getD_eq_getElem prices 0 hin]
      exact List.getElem_mem hin
    have hmin := pyMin_le prices _ hpm
    have hmax := le_pyMax prices _ hpm
    obtain ⟨hge, hle⟩ := barHeight_bounds (prices.getD i 0) (pyMin prices)
      (pyMax prices - pyMin prices) h2 hmin (by linarith)
    refine ⟨barHeight (prices.getD i 0) (pyMin prices)
      (pyMax prices - pyMin prices), hge, hle, rfl, ?_, ?_⟩
    · unfold barChars; omega
    · unfold barChars; omega
  · cases hb
  · cases hb

/-- C4 witness: the 21-character bar drawn for prices `[0, 1]` is within
the amended 1–21 bound, with truncated height 20. -/
theorem c4_bar_bounds_witness :
    ∃ h : ℤ, 0 ≤ h ∧ h ≤ 20 ∧ 21 = (h + 1).toNat ∧ 1 ≤ 21 ∧ 21 ≤ 21 :=
  c4_bar_bounds [(0:ℚ), 1] 21 (by rw [chartBarLens_two]; simp)

/-- C5: for every positive day count the interval and point cap are chosen
by the day range exactly as the spec states, and the requested limit never
exceeds the API maximum of 1000. -/
theorem c5_interval_limit (days : ℤ) (hd : 0 < days) :
    (days ≤ 1 → intervalLimit days = ("15m", 96)) ∧
    (1 < days → days ≤ 7 → intervalLimit days = ("1h", 168)) ∧
    (7 < days → days ≤ 30 → intervalLimit days = ("4h", 180)) ∧
    (30 < days → intervalLimit days = ("1d", min days 1000)) ∧
    (intervalLimit days).2 ≤ 1000 := by
  unfold intervalLimit
  refine ⟨fun h => by rw [if_pos h],
    fun h1 h2 => by rw [if_neg (by omega), if_pos h2],
    fun h1 h2 => by rw [if_neg (by omega), if_neg (by omega), if_pos h2],
    fun h => by rw [if_neg (by omega), if_neg (by omega), if_neg (by omega)],
    ?_⟩
  split_ifs <;> simp

/-- C5 witness: 5 days selects interval 1h with limit 168, within the 1000
cap. -/
theorem c5_interval_limit_witness :
    intervalLimit 5 = ("1h", 168) ∧ (intervalLimit 5).2 ≤ 1000 :=
  ⟨(c5_interval_limit 5 (by norm_num)).2.1 (by norm_num) (by norm_num),
   (c5_interval_limit 5 (by norm_num)).2.2.2.2⟩

/-- C6: `get_historical_data` returns `none` on an empty response, on a
raised request/parse error, and whenever some candle with the required six
fields has an unparsable close price; and whenever it returns a value that
value is a non-empty list of pairs and the response contained a well-formed
candle. -/
theorem c6_historical_failure :
    getHistoricalData (.ok []) = none ∧
    (∀ e, getHistoricalData (.error e) = none) ∧
    (∀ data : List Candle,
      (∃ c ∈ data, 6 ≤ c.length ∧ c.getD 4 PyVal.bad = PyVal.bad) →
      getHistoricalData (.ok data) = none) ∧
    (∀ (resp : Except PyErr (List Candle)) (h : List (PyVal × ℚ)),
      getHistoricalData resp = some h →
      h ≠ [] ∧ ∃ data, resp = .ok data ∧
        ∃ c ∈ data, 6 ≤ c.length ∧ ∃ q, c.getD 4 PyVal.bad = PyVal.num q) := by
  refine ⟨rfl, fun e => rfl, ?_, ?_⟩
  · intro data hbad
    rw [getHistoricalData_ok, processCandles_err data hbad]
  · intro resp h hsome
    cases resp with
    | error e => simp [getHistoricalData] at hsome
    | ok data =>
      rw [getHistoricalData_ok] at hsome
      cases hp : processCandles data with
      | error e =>
        rw [hp] at hsome
        have h' : (none : Option (List (PyVal × ℚ))) = some h := hsome
        cases h'
      | ok historical =>
        rw [hp] at hsome
        cases historical with
        | nil =>
          have h' : (none : Option (List (PyVal × ℚ))) = some h := hsome
          cases h'
        | cons x t =>
          have h' : some (x :: t) = some h := hsome
          obtain rfl : x :: t = h := Option.some.inj h'
          exact ⟨by simp, data, rfl, processCandles_ok_mem data x t hp⟩

/-- C6 witness: a response with one candle whose close price is malformed
yields `none`; a well-formed single-candle response yields a non-empty
result whose candle is well-formed. -/
theorem c6_historical_failure_witness :
    getHistoricalData
      (.ok [[PyVal.num 1, PyVal.num 2, PyVal.num 3, PyVal.num 4,
        PyVal.bad, PyVal.num 6]]) = none ∧
    ([(PyVal.num 1, (5:ℚ))] ≠ [] ∧
      ∃ data, (Except.ok [[PyVal.num 1, PyVal.num 2, PyVal.num 3, PyVal.num 4,
          PyVal.num 5, PyVal.num 6]] : Except PyErr (List Candle)) = .ok data ∧
        ∃ c ∈ data, 6 ≤ c.length ∧ ∃ q, c.getD 4 PyVal.bad = PyVal.num q) :=
  ⟨c6_historical_failure.2.2.1 _
      ⟨[PyVal.num 1, PyVal.num 2, PyVal.num 3, PyVal.num 4,
        PyVal.bad, PyVal.num 6], by simp, by decide, by decide⟩,
   c6_historical_failure.2.2.2 _ [(PyVal.num 1, (5:ℚ))] (by decide)⟩

/-- C9: the amount loop accepts exactly the parsed floats for which
`v <= 0` is false; in particular `"nan"` and `"inf"` are accepted (every
comparison with NaN is false), and the displayed conversion result is then
the IEEE product: NaN times any price is NaN, and infinity times a positive
price is infinity. -/
theorem c9_nan_inf_accepted :
    (∀ v rest, pyLeZero v = false → amountLoop (some v :: rest) = some v) ∧
    amountLoop [some PyFloat.nan] = some PyFloat.nan ∧
    amountLoop [some PyFloat.inf] = some PyFloat.inf ∧
    (∀ price : ℚ, convertResultPy PyFloat.nan price = PyFloat.nan) ∧
    (∀ price : ℚ, 0 < price → convertResultPy PyFloat.inf price = PyFloat.inf) := by
  refine ⟨fun v rest hv => by simp [amountLoop, hv], rfl, rfl, fun p => rfl,
    fun p hp => ?_⟩
  simp [convertResultPy, pyMulQ, hp]

/-- C9 witness: the value 3 is accepted at the head of the stream, and an
infinite amount converts at price 65000 to an infinite result. -/
theorem c9_nan_inf_accepted_witness :
    amountLoop [some (PyFloat.num 3)] = some (PyFloat.num 3) ∧
    convertResultPy PyFloat.inf 65000 = PyFloat.inf :=
  ⟨c9_nan_inf_accepted.1 (PyFloat.num 3) [] (by decide),
   c9_nan_inf_accepted.2.2.2.2 65000 (by norm_num)⟩
